import Mathlib

/-!
Verification of the `supy` capture-trigger utility core.

The definitions below are a shallow embedding of the Python sources:
`src/supy/hotkey.py` (key tracking and the debounced gesture recognizer),
`src/supy/main.py` (the two-step region-capture protocol in
`_on_hotkey_cropped`), `src/supy/signal.py` (the `StatusDot` command queue,
render-loop batch processor and lifecycle guards) and `src/supy/capture.py`
(the clamped region grab).  Wall-clock timestamps (Python floats from
`time.monotonic()`) are modelled as rationals; screen coordinates (ints after
`int(x)` casts) as integers.  External collaborators (pointer sampling,
screen grab, AI analysis, UI surfaces) are modelled by their outcomes, which
the embedded handlers branch on exactly as the Python control flow does.
-/

namespace Supy

/-! ## Key events (hotkey.py)

Raw events delivered by pynput: named special keys (`keyboard.Key.alt`,
`alt_l`, `alt_r`, `shift`, `shift_l`, `shift_r`, `space`, and any other named
key), or a `keyboard.KeyCode` carrying an optional virtual-key code `vk`. -/

inductive RawKey where
  | alt | alt_l | alt_r
  | shift | shift_l | shift_r
  | space
  | otherNamed
  | keyCode (vk : Option Nat)
  deriving DecidableEq, Repr

/-- Membership test mirroring `key in (Key.alt, Key.alt_l, Key.alt_r)`. -/
def RawKey.isAlt : RawKey → Bool
  | .alt => true
  | .alt_l => true
  | .alt_r => true
  | _ => false

/-- Membership test mirroring `key in (Key.shift, Key.shift_l, Key.shift_r)`. -/
def RawKey.isShift : RawKey → Bool
  | .shift => true
  | .shift_l => true
  | .shift_r => true
  | _ => false

/-- Set `self._q_vk_codes = {12, 81}` from `GlobalHotkeyListener.__init__`. -/
def q_vk_codes (vk : Nat) : Bool := vk == 12 || vk == 81

/-- Set `self._w_vk_codes = {13, 87}` from `GlobalHotkeyListener.__init__`. -/
def w_vk_codes (vk : Nat) : Bool := vk == 13 || vk == 87

/-- Set `self._space_vk_codes = {49, 32}` from `GlobalHotkeyListener.__init__`. -/
def space_vk_codes (vk : Nat) : Bool := vk == 49 || vk == 32

/-- The five tracked boolean flags of `GlobalHotkeyListener`
(`_alt_down`, `_shift_down`, `_q_down`, `_w_down`, `_space_down`). -/
structure KeyState where
  alt_down : Bool
  shift_down : Bool
  q_down : Bool
  w_down : Bool
  space_down : Bool
  deriving DecidableEq, Repr

/-- The initial all-up state set in `__init__`. -/
def KeyState.initial : KeyState :=
  ⟨false, false, false, false, false⟩

/-- State mutation performed by `GlobalHotkeyListener._on_press` (the
sequence of independent `if` statements; the `vk` lookups only apply to
`KeyCode` events). -/
def KeyState.onPress (s : KeyState) (k : RawKey) : KeyState :=
  let s := if k.isAlt then { s with alt_down := true } else s
  let s := if k.isShift then { s with shift_down := true } else s
  let s := if k = .space then { s with space_down := true } else s
  match k with
  | .keyCode (some vk) =>
      let s := if q_vk_codes vk then { s with q_down := true } else s
      let s := if w_vk_codes vk then { s with w_down := true } else s
      if space_vk_codes vk then { s with space_down := true } else s
  | _ => s

/-- State mutation performed by `GlobalHotkeyListener._on_release`. -/
def KeyState.onRelease (s : KeyState) (k : RawKey) : KeyState :=
  let s := if k.isAlt then { s with alt_down := false } else s
  let s := if k.isShift then { s with shift_down := false } else s
  let s := if k = .space then { s with space_down := false } else s
  match k with
  | .keyCode (some vk) =>
      let s := if q_vk_codes vk then { s with q_down := false } else s
      let s := if w_vk_codes vk then { s with w_down := false } else s
      if space_vk_codes vk then { s with space_down := false } else s
  | _ => s

/-- Predicate `GlobalHotkeyListener._check_combo`:
Alt and Shift held with either Q or W down. -/
def KeyState.check_combo (s : KeyState) : Bool :=
  s.alt_down && s.shift_down && (s.q_down || s.w_down)

/-- Predicate `GlobalHotkeyListener._check_toggle_combo`:
Alt held, Shift not held, Space down. -/
def KeyState.check_toggle_combo (s : KeyState) : Bool :=
  s.alt_down && !s.shift_down && s.space_down

/-! ## Gesture recognizer (hotkey.py, `_maybe_trigger`) -/

/-- The three gesture callbacks the listener can invoke. -/
inductive Action where
  | fullCapture
  | regionCapture
  | toggle
  deriving DecidableEq, Repr

/-- The listener's trigger-relevant state: which of the three callbacks are
registered (`is not None`), the debounce interval, the last-trigger
timestamp, and the tracked key flags. -/
structure Listener where
  on_trigger : Bool
  on_trigger_cropped : Bool
  on_toggle_answer : Bool
  debounce_seconds : ℚ
  last_trigger_ts : ℚ
  keys : KeyState
  deriving DecidableEq, Repr

/-- Embedding of `GlobalHotkeyListener._maybe_trigger`.  Returns the updated
listener and the callback invoked, if any.  Order of operations follows the
source: the debounce check first, then `self._last_trigger_ts = now`
unconditionally, then the toggle branch, then the capture branches.  A
callback that raises is caught in the source's `except`, so an invocation is
simply reported as the fired action. -/
def Listener.maybe_trigger (L : Listener) (now : ℚ) : Listener × Option Action :=
  if now - L.last_trigger_ts < L.debounce_seconds then
    (L, none)
  else
    let L := { L with last_trigger_ts := now }
    if L.keys.check_toggle_combo && L.on_toggle_answer then
      (L, some .toggle)
    else if L.keys.check_combo then
      if L.keys.q_down && L.on_trigger then (L, some .fullCapture)
      else if L.keys.w_down && L.on_trigger_cropped then (L, some .regionCapture)
      else (L, none)
    else (L, none)

/-- A raw input event: a key press or a key release. -/
inductive Event where
  | press (k : RawKey)
  | release (k : RawKey)
  deriving DecidableEq, Repr

/-- The raw key carried by an event. -/
def Event.key : Event → RawKey
  | .press k => k
  | .release k => k

/-- Whether the event is a press. -/
def Event.isPress : Event → Bool
  | .press _ => true
  | .release _ => false

/-- One event through the listener: `_on_press` updates the key flags and
calls `_maybe_trigger` only when a combo predicate holds afterwards;
`_on_release` updates the flags and never triggers. -/
def Listener.handle_event (L : Listener) (now : ℚ) (e : Event) :
    Listener × Option Action :=
  match e with
  | .press k =>
      let keys := L.keys.onPress k
      let L := { L with keys := keys }
      if keys.check_combo || keys.check_toggle_combo then L.maybe_trigger now
      else (L, none)
  | .release k =>
      ({ L with keys := L.keys.onRelease k }, none)

/-- Run a timed event sequence through the listener, collecting the fired
triggers with their timestamps. -/
def Listener.run_events (L : Listener) :
    List (ℚ × Event) → Listener × List (ℚ × Action)
  | [] => (L, [])
  | (t, e) :: rest =>
      let p := L.handle_event t e
      let r := p.1.run_events rest
      (r.1, (match p.2 with
             | some a => [(t, a)]
             | none => []) ++ r.2)

/-! ## Region-capture protocol (main.py, `_on_hotkey_cropped`)

The handler reads the module-level pending state (`_pending_crop_start`,
`_pending_crop_ts`, `_pending_timeout_seconds`), samples the mouse, and
either records a first point or computes a rectangle, captures it and runs
the analysis.  Collaborator outcomes (mouse sampling, `capture_region_to_file`,
the analysis call) are supplied as an environment the handler branches on
exactly where the Python raises or succeeds. -/

/-- The module-level pending-region state of `main.py`. -/
structure CropState where
  pending_crop_start : Option (Int × Int)
  pending_crop_ts : ℚ
  pending_timeout_seconds : ℚ
  deriving DecidableEq, Repr

/-- Outcomes of the external collaborators used by `_on_hotkey_cropped`:
`mouse_position = none` models `mouse.Controller().position` raising;
`capture_ok = false` models `capture_region_to_file` raising;
`analysis_ok = false` models the OCR/AI analysis raising. -/
structure CropEnv where
  mouse_position : Option (Int × Int)
  capture_ok : Bool
  analysis_ok : Bool
  deriving DecidableEq, Repr

/-- What one call to `_on_hotkey_cropped` did.  `fallbackFull` is the
full-screen fallback taken when mouse sampling fails; `firstPoint` is the
step-1 return; `captured` is a completed step 2 (recording whether the
analysis succeeded, since its exception is caught); `captureError` is a
step 2 where `capture_region_to_file` raised and the exception propagated
out of the handler. -/
inductive CropOutcome where
  | fallbackFull
  | firstPoint (p : Int × Int)
  | captured (left top width height : Int) (analysis_ok : Bool)
  | captureError (left top width height : Int)
  deriving DecidableEq, Repr

/-- Embedding of `_on_hotkey_cropped`, following the source line by line:
mouse failure falls back to `_on_hotkey()` (state untouched); a missing or
timed-out pending point stores `(point, now)` and returns; otherwise the
rectangle `left=min`, `top=min`, `width=max(0, right-left)`,
`height=max(0, bottom-top)` is computed, the region is captured and
analysed, and only then is the pending state reset
(`_pending_crop_start = None`, `_pending_crop_ts = 0.0`); a raise inside
`capture_region_to_file` leaves the pending state as it was. -/
def on_hotkey_cropped (env : CropEnv) (st : CropState) (now : ℚ) :
    CropState × CropOutcome :=
  match env.mouse_position with
  | none => (st, .fallbackFull)
  | some (x, y) =>
    match st.pending_crop_start with
    | none =>
        ({ st with pending_crop_start := some (x, y), pending_crop_ts := now },
         .firstPoint (x, y))
    | some (x1, y1) =>
        if now - st.pending_crop_ts > st.pending_timeout_seconds then
          ({ st with pending_crop_start := some (x, y), pending_crop_ts := now },
           .firstPoint (x, y))
        else
          let left := min x1 x
          let top := min y1 y
          let right := max x1 x
          let bottom := max y1 y
          let width := max 0 (right - left)
          let height := max 0 (bottom - top)
          if env.capture_ok then
            ({ st with pending_crop_start := none, pending_crop_ts := 0 },
             .captured left top width height env.analysis_ok)
          else
            (st, .captureError left top width height)

/-! ## Region grab (capture.py, `capture_region_to_file`) -/

/-- The `region` dict handed to `mss().grab` in `capture_region_to_file`. -/
structure GrabRegion where
  left : Int
  top : Int
  width : Int
  height : Int
  deriving DecidableEq, Repr

/-- Embedding of the region computation in `capture_region_to_file`:
`{"left": max(0, left), "top": max(0, top), "width": max(0, width),
"height": max(0, height)}`. -/
def capture_region_to_file (left top width height : Int) : GrabRegion :=
  ⟨max 0 left, max 0 top, max 0 width, max 0 height⟩

/-! ## Status indicator (signal.py, `StatusDot`) -/

/-- A queued command: the `("color", hex)`, `("label", text)` and
`("quit", None)` tuples placed on `_cmd_q`. -/
inductive Cmd where
  | color (c : String)
  | label (s : String)
  | quit
  deriving DecidableEq, Repr

/-- The `StatusDot.COLORS` dict. -/
def COLORS (key : String) : String :=
  if key = "idle" then "#2b6cb0"
  else if key = "crop" then "#d69e2e"
  else if key = "done" then "#2f855a"
  else ""

/-- Producer-side observable state of a `StatusDot`: the `_alive` event flag
and the FIFO command queue `_cmd_q`.  `max_label_chars` is the style field
used by the consumer to truncate labels (default 24). -/
structure StatusDot where
  alive : Bool
  cmd_q : List Cmd
  max_label_chars : Nat
  deriving DecidableEq, Repr

/-- Embedding of `StatusDot._set_color`: enqueue only when `_alive` is set. -/
def StatusDot.set_color (d : StatusDot) (color : String) : StatusDot :=
  if d.alive then { d with cmd_q := d.cmd_q ++ [.color color] } else d

/-- Embedding of `StatusDot.set_idle`. -/
def StatusDot.set_idle (d : StatusDot) : StatusDot := d.set_color (COLORS "idle")

/-- Embedding of `StatusDot.set_pending_crop`. -/
def StatusDot.set_pending_crop (d : StatusDot) : StatusDot := d.set_color (COLORS "crop")

/-- Embedding of `StatusDot.set_done`. -/
def StatusDot.set_done (d : StatusDot) : StatusDot := d.set_color (COLORS "done")

/-- Embedding of `StatusDot.set_label` (a `None` text is replaced by `""`
before the aliveness guard). -/
def StatusDot.set_label (d : StatusDot) (text : Option String) : StatusDot :=
  let text := text.getD ""
  if d.alive then { d with cmd_q := d.cmd_q ++ [.label text] } else d

/-- Embedding of `StatusDot.clear_label`. -/
def StatusDot.clear_label (d : StatusDot) : StatusDot :=
  if d.alive then { d with cmd_q := d.cmd_q ++ [.label ""] } else d

/-- Embedding of `StatusDot.stop`: when alive, enqueue `("quit", None)` and
clear the alive flag (the bounded `join` has no queue-visible effect). -/
def StatusDot.stop (d : StatusDot) : StatusDot :=
  if d.alive then { d with cmd_q := d.cmd_q ++ [.quit], alive := false } else d

/-- Embedding of `StatusDot.start`.  The returned boolean records whether
this call launched a render-loop thread (`threading.Thread(target=self._run_ui)`
followed by `.start()`); when `_alive` is already set the method returns
at once and launches nothing. -/
def StatusDot.start (d : StatusDot) : StatusDot × Bool :=
  if d.alive then (d, false)
  else ({ d with alive := true }, true)

/-- Embedding of `StatusDot.run_on_current_thread`.  `run_ui` is the
platform-chosen `_run_ui` render loop, run synchronously on the caller's
thread; the `finally` clears `_alive`.  The returned boolean records whether
this call ran a render loop; when `_alive` is already set the method returns
at once and runs nothing. -/
def StatusDot.run_on_current_thread (run_ui : StatusDot → StatusDot)
    (d : StatusDot) : StatusDot × Bool :=
  if d.alive then (d, false)
  else
    let d' := run_ui { d with alive := true }
    ({ d' with alive := false }, true)

/-! ## Render-loop command processing (signal.py, `_process_commands_generic`) -/

/-- Visible state of the render surface: the colour applied by
`update_color_fn`, the (truncated) label applied via `self._label_text` and
`update_label_fn`, and whether `quit_fn` has been called. -/
structure Display where
  color : String
  label_text : String
  quit_called : Bool
  deriving DecidableEq, Repr

/-- Effect of a single dequeued command on the display, as performed inside
the loop body of `_process_commands_generic` (labels are truncated to
`max_label_chars` characters first). -/
def applyCmd (max_label_chars : Nat) (disp : Display) : Cmd → Display
  | .color s => { disp with color := s }
  | .label s => { disp with label_text := s.take max_label_chars }
  | .quit => { disp with quit_called := true }

/-- The loop of `_process_commands_generic` with `fuel = 8 - processed`
iterations remaining: `get_nowait` on an empty queue breaks; a popped
command is applied; `quit` calls `quit_fn` and returns immediately, leaving
the rest of the queue in place.  Returns the remaining queue and the
updated display. -/
def process_commands_from (max_label_chars : Nat) :
    Nat → List Cmd → Display → List Cmd × Display
  | _, [], disp => ([], disp)
  | 0, q, disp => (q, disp)
  | fuel + 1, .color s :: q, disp =>
      process_commands_from max_label_chars fuel q { disp with color := s }
  | fuel + 1, .label s :: q, disp =>
      process_commands_from max_label_chars fuel q
        { disp with label_text := s.take max_label_chars }
  | _ + 1, .quit :: q, disp =>
      (q, { disp with quit_called := true })

/-- One invocation of `StatusDot._process_commands_generic`: at most 8
commands are processed per tick (`while processed < 8`). -/
def process_commands_generic (max_label_chars : Nat) (q : List Cmd)
    (disp : Display) : List Cmd × Display :=
  process_commands_from max_label_chars 8 q disp

/-- The render loop's timer firing `n` ticks, each tick invoking
`_process_commands_generic` on the current queue. -/
def drain_ticks (max_label_chars : Nat) :
    Nat → List Cmd → Display → List Cmd × Display
  | 0, q, disp => (q, disp)
  | n + 1, q, disp =>
      let p := process_commands_generic max_label_chars q disp
      drain_ticks max_label_chars n p.1 p.2

/-- The colour selected by the last `color` command of a queue, if any. -/
def lastColor (q : List Cmd) : Option String :=
  (q.filterMap fun c =>
    match c with
    | .color s => some s
    | _ => none).getLast?

/-! ## Semantic key tracking (for the KeyState invariant) -/

/-- The five semantic keys tracked by the listener. -/
inductive TrackedKey where
  | altK | shiftK | qK | wK | spaceK
  deriving DecidableEq, Repr

/-- Which raw keys update which tracked flag, read off the `if` statements of
`_on_press` / `_on_release`: alt/shift variants, `Key.space`, and `KeyCode`
events whose `vk` lies in the respective virtual-key-code set. -/
def affects (k : RawKey) : TrackedKey → Bool
  | .altK => k.isAlt
  | .shiftK => k.isShift
  | .qK =>
      match k with
      | .keyCode (some vk) => q_vk_codes vk
      | _ => false
  | .wK =>
      match k with
      | .keyCode (some vk) => w_vk_codes vk
      | _ => false
  | .spaceK =>
      (k = RawKey.space) ||
      (match k with
       | .keyCode (some vk) => space_vk_codes vk
       | _ => false)

/-- Read one tracked flag out of the state. -/
def KeyState.report (s : KeyState) : TrackedKey → Bool
  | .altK => s.alt_down
  | .shiftK => s.shift_down
  | .qK => s.q_down
  | .wK => s.w_down
  | .spaceK => s.space_down

/-- Dispatch of the pynput listener: presses go to `_on_press`'s state
update, releases to `_on_release`'s. -/
def KeyState.applyEvent (s : KeyState) : Event → KeyState
  | .press k => s.onPress k
  | .release k => s.onRelease k

/-- The key state after feeding a whole event sequence to the listener,
starting from the all-up initial state of `__init__`. -/
def runKeys (es : List Event) : KeyState :=
  es.foldl KeyState.applyEvent KeyState.initial

/-- Whether the last event of `es` that touches tracked key `t` is a press
(`false` when no event touches it). -/
def downAfter (es : List Event) (t : TrackedKey) : Bool :=
  match (es.filter fun e => affects e.key t).getLast? with
  | some e => e.isPress
  | none => false

theorem report_onPress (s : KeyState) (k : RawKey) (t : TrackedKey) :
    (s.onPress k).report t = (affects k t || s.report t) := by
  cases k with
  | keyCode vk =>
      cases vk with
      | none =>
          cases t <;>
            simp [KeyState.onPress, KeyState.report, affects, RawKey.isAlt, RawKey.isShift]
      | some n =>
          cases t <;>
            (simp only [KeyState.onPress, KeyState.report, affects, RawKey.isAlt,
              RawKey.isShift] <;>
             cases hq : q_vk_codes n <;> cases hw : w_vk_codes n <;>
             cases hs : space_vk_codes n <;>
             simp [hq, hw, hs])
  | _ =>
      cases t <;>
        simp [KeyState.onPress, KeyState.report, affects, RawKey.isAlt, RawKey.isShift]

theorem report_onRelease (s : KeyState) (k : RawKey) (t : TrackedKey) :
    (s.onRelease k).report t = (!affects k t && s.report t) := by
  cases k with
  | keyCode vk =>
      cases vk with
      | none =>
          cases t <;>
            simp [KeyState.onRelease, KeyState.report, affects, RawKey.isAlt, RawKey.isShift]
      | some n =>
          cases t <;>
            (simp only [KeyState.onRelease, KeyState.report, affects, RawKey.isAlt,
              RawKey.isShift] <;>
             cases hq : q_vk_codes n <;> cases hw : w_vk_codes n <;>
             cases hs : space_vk_codes n <;>
             simp [hq, hw, hs])
  | _ =>
      cases t <;>
        simp [KeyState.onRelease, KeyState.report, affects, RawKey.isAlt, RawKey.isShift]

theorem report_applyEvent (s : KeyState) (e : Event) (t : TrackedKey) :
    (s.applyEvent e).report t =
      (if affects e.key t then e.isPress else s.report t) := by
  cases e with
  | press k =>
      rw [show (s.applyEvent (.press k)) = s.onPress k from rfl, report_onPress]
      cases h : affects k t <;> simp [Event.key, Event.isPress, h]
  | release k =>
      rw [show (s.applyEvent (.release k)) = s.onRelease k from rfl, report_onRelease]
      cases h : affects k t <;> simp [Event.key, Event.isPress, h]

/-- Two key states agreeing on every tracked key are equal. -/
theorem KeyState.ext_report (s1 s2 : KeyState)
    (h : ∀ t, s1.report t = s2.report t) : s1 = s2 := by
  obtain ⟨a1, b1, c1, d1, e1⟩ := s1
  obtain ⟨a2, b2, c2, d2, e2⟩ := s2
  have h1 := h .altK
  have h2 := h .shiftK
  have h3 := h .qK
  have h4 := h .wK
  have h5 := h .spaceK
  simp only [KeyState.report] at h1 h2 h3 h4 h5
  simp [h1, h2, h3, h4, h5]

/-- Coherence with the listener: trigger evaluation never changes the key
flags, so the listener's keys evolve exactly by `applyEvent`. -/
theorem handle_event_keys (L : Listener) (t : ℚ) (e : Event) :
    (L.handle_event t e).1.keys = L.keys.applyEvent e := by
  cases e with
  | press k =>
      simp only [Listener.handle_event, KeyState.applyEvent]
      split
      · simp only [Listener.maybe_trigger]
        repeat' split
        all_goals rfl
      · rfl
  | release k => rfl

theorem report_foldl (es : List Event) (t : TrackedKey) (s : KeyState) :
    ((es.foldl KeyState.applyEvent s).report t) =
      (match (es.filter fun e => affects e.key t).getLast? with
       | some e => e.isPress
       | none => s.report t) := by
  induction es using List.reverseRecOn with
  | nil => rfl
  | append_singleton es e ih =>
      rw [List.foldl_append, List.foldl_cons, List.foldl_nil, report_applyEvent,
        List.filter_append]
      cases h : affects e.key t with
      | true =>
          have hfilter : List.filter (fun e => affects e.key t) [e] = [e] := by
            simp [h]
          rw [hfilter, List.getLast?_concat]
          simp [h]
      | false =>
          have hfilter : List.filter (fun e => affects e.key t) [e] = [] := by
            simp [h]
          rw [hfilter, List.append_nil]
          simp only [h, Bool.false_eq_true, if_false]
          exact ih

/-! ## Debounce bookkeeping lemmas -/

theorem maybe_trigger_swallow (L : Listener) (now : ℚ)
    (h : now - L.last_trigger_ts < L.debounce_seconds) :
    L.maybe_trigger now = (L, none) := by
  simp only [Listener.maybe_trigger, if_pos h]

theorem maybe_trigger_fst (L : Listener) (now : ℚ)
    (h : ¬(now - L.last_trigger_ts < L.debounce_seconds)) :
    (L.maybe_trigger now).1 = { L with last_trigger_ts := now } := by
  simp only [Listener.maybe_trigger, if_neg h]
  repeat' split
  all_goals rfl

theorem maybe_trigger_debounce_eq (L : Listener) (now : ℚ) :
    (L.maybe_trigger now).1.debounce_seconds = L.debounce_seconds := by
  by_cases h : now - L.last_trigger_ts < L.debounce_seconds
  · rw [maybe_trigger_swallow L now h]
  · rw [maybe_trigger_fst L now h]

theorem maybe_trigger_fire (L : Listener) (now : ℚ) (a : Action)
    (h : (L.maybe_trigger now).2 = some a) :
    L.last_trigger_ts + L.debounce_seconds ≤ now ∧
    (L.maybe_trigger now).1.last_trigger_ts = now := by
  by_cases hlt : now - L.last_trigger_ts < L.debounce_seconds
  · rw [maybe_trigger_swallow L now hlt] at h
    simp at h
  · refine ⟨by linarith [not_lt.mp hlt], ?_⟩
    rw [maybe_trigger_fst L now hlt]

/-- Summary of what one event does to the trigger bookkeeping: the debounce
interval never changes, the last-trigger timestamp never decreases (for a
nonnegative interval), and a fired trigger implies the event time is at
least one debounce interval past the previous timestamp and becomes the new
timestamp. -/
theorem handle_event_ts (L : Listener) (t : ℚ) (e : Event)
    (hd : 0 ≤ L.debounce_seconds) :
    (L.handle_event t e).1.debounce_seconds = L.debounce_seconds ∧
    L.last_trigger_ts ≤ (L.handle_event t e).1.last_trigger_ts ∧
    (∀ a, (L.handle_event t e).2 = some a →
        L.last_trigger_ts + L.debounce_seconds ≤ t ∧
        (L.handle_event t e).1.last_trigger_ts = t) := by
  cases e with
  | release k =>
      refine ⟨rfl, le_refl _, ?_⟩
      intro a ha
      simp [Listener.handle_event] at ha
  | press k =>
      simp only [Listener.handle_event]
      split
      · set L' : Listener := { L with keys := L.keys.onPress k } with hL'
        have hts : L'.last_trigger_ts = L.last_trigger_ts := rfl
        have hdeb : L'.debounce_seconds = L.debounce_seconds := rfl
        by_cases hlt : t - L'.last_trigger_ts < L'.debounce_seconds
        · rw [maybe_trigger_swallow L' t hlt]
          refine ⟨hdeb, le_of_eq hts.symm, ?_⟩
          intro a ha
          simp at ha
        · have h1 := maybe_trigger_fst L' t hlt
          have h2 : L'.last_trigger_ts + L'.debounce_seconds ≤ t := by
            linarith [not_lt.mp hlt]
          refine ⟨by rw [h1], ?_, ?_⟩
          · rw [h1]
            show L.last_trigger_ts ≤ t
            rw [hts, hdeb] at h2
            linarith
          · intro a _
            rw [h1]
            rw [hts, hdeb] at h2
            exact ⟨h2, rfl⟩
      · refine ⟨rfl, le_refl _, ?_⟩
        intro a ha
        simp at ha

/-- Main debounce run invariant: along any event sequence, all fired
triggers lie at least one debounce interval past the starting timestamp,
never past the final timestamp, the timestamp is monotone, the interval is
constant, and consecutive fired triggers are at least one debounce interval
apart. -/
theorem run_events_facts :
    ∀ (es : List (ℚ × Event)) (L : Listener), 0 ≤ L.debounce_seconds →
      (L.run_events es).1.debounce_seconds = L.debounce_seconds ∧
      L.last_trigger_ts ≤ (L.run_events es).1.last_trigger_ts ∧
      (∀ p ∈ (L.run_events es).2,
          L.last_trigger_ts + L.debounce_seconds ≤ p.1 ∧
          p.1 ≤ (L.run_events es).1.last_trigger_ts) ∧
      List.Pairwise (fun p q => p.1 + L.debounce_seconds ≤ q.1)
        (L.run_events es).2 := by
  intro es
  induction es with
  | nil =>
      intro L _
      exact ⟨rfl, le_refl _, by simp [Listener.run_events], by
        simp [Listener.run_events]⟩
  | cons te rest ih =>
      intro L hd
      obtain ⟨t, e⟩ := te
      obtain ⟨hdeb, hmono, hfire⟩ := handle_event_ts L t e hd
      set L' := (L.handle_event t e).1 with hL'
      have hd' : 0 ≤ L'.debounce_seconds := hdeb ▸ hd
      obtain ⟨ihdeb, ihmono, ihbound, ihpair⟩ := ih L' hd'
      have hrun : L.run_events ((t, e) :: rest) =
          ((L'.run_events rest).1,
           (match (L.handle_event t e).2 with
            | some a => [(t, a)]
            | none => []) ++ (L'.run_events rest).2) := rfl
      rw [hrun]
      have hpair' : List.Pairwise (fun p q : ℚ × Action =>
          p.1 + L.debounce_seconds ≤ q.1) (L'.run_events rest).2 := by
        have : (fun p q : ℚ × Action => p.1 + L.debounce_seconds ≤ q.1) =
            (fun p q : ℚ × Action => p.1 + L'.debounce_seconds ≤ q.1) := by
          rw [hdeb]
        rw [this]
        exact ihpair
      cases ha : (L.handle_event t e).2 with
      | none =>
          simp only [List.nil_append]
          refine ⟨by rw [ihdeb, hdeb], le_trans hmono ihmono, ?_, hpair'⟩
          intro p hp
          obtain ⟨h1, h2⟩ := ihbound p hp
          rw [hdeb] at h1
          exact ⟨by linarith, h2⟩
      | some a =>
          obtain ⟨hge, heq⟩ := hfire a ha
          simp only [List.cons_append, List.nil_append]
          refine ⟨by rw [ihdeb, hdeb], le_trans hmono ihmono, ?_, ?_⟩
          · intro p hp
            rcases List.mem_cons.mp hp with hhead | htail
            · subst hhead
              refine ⟨hge, ?_⟩
              show t ≤ (L'.run_events rest).1.last_trigger_ts
              rw [← heq]
              exact ihmono
            · obtain ⟨h1, h2⟩ := ihbound p htail
              rw [hdeb] at h1
              exact ⟨by linarith, h2⟩
          · refine List.Pairwise.cons ?_ hpair'
            intro q hq
            obtain ⟨h1, _⟩ := ihbound q hq
            rw [hdeb] at h1
            show t + L.debounce_seconds ≤ q.1
            linarith

/-! ## Command-queue processing lemmas -/

theorem lastColor_append_color (q : List Cmd) (s : String) :
    lastColor (q ++ [.color s]) = some s := by
  unfold lastColor
  rw [List.filterMap_append]
  rw [show List.filterMap (fun c =>
    match c with
    | Cmd.color s => some s
    | _ => none) [Cmd.color s] = [s] from rfl]
  exact List.getLast?_concat _

theorem lastColor_append_label (q : List Cmd) (s : String) :
    lastColor (q ++ [.label s]) = lastColor q := by
  unfold lastColor
  rw [List.filterMap_append]
  rw [show List.filterMap (fun c =>
    match c with
    | Cmd.color s => some s
    | _ => none) [Cmd.label s] = [] from rfl]
  rw [List.append_nil]

theorem lastColor_append_quit (q : List Cmd) :
    lastColor (q ++ [.quit]) = lastColor q := by
  unfold lastColor
  rw [List.filterMap_append]
  rw [show List.filterMap (fun c =>
    match c with
    | Cmd.color s => some s
    | _ => none) [Cmd.quit] = [] from rfl]
  rw [List.append_nil]

/-- The colour shown after applying a command list in order is the colour of
the last `color` command, or the starting colour when there is none. -/
theorem foldl_applyCmd_color (m : Nat) (q : List Cmd) :
    ∀ disp : Display,
      (q.foldl (applyCmd m) disp).color = (lastColor q).getD disp.color := by
  induction q using List.reverseRecOn with
  | nil => intro disp; rfl
  | append_singleton q c ih =>
      intro disp
      rw [List.foldl_append, List.foldl_cons, List.foldl_nil]
      cases c with
      | color s =>
          rw [lastColor_append_color]
          rfl
      | label s =>
          rw [lastColor_append_label]
          rw [show (applyCmd m (q.foldl (applyCmd m) disp) (Cmd.label s)).color
              = (q.foldl (applyCmd m) disp).color from rfl]
          exact ih disp
      | quit =>
          rw [lastColor_append_quit]
          rw [show (applyCmd m (q.foldl (applyCmd m) disp) Cmd.quit).color
              = (q.foldl (applyCmd m) disp).color from rfl]
          exact ih disp

/-- FIFO shape of one tick: with no `quit` queued, the processor removes
exactly the first `fuel` commands and applies them in enqueue order. -/
theorem process_commands_from_no_quit (m : Nat) :
    ∀ (fuel : Nat) (q : List Cmd), Cmd.quit ∉ q → ∀ disp : Display,
      process_commands_from m fuel q disp =
        (q.drop fuel, (q.take fuel).foldl (applyCmd m) disp) := by
  intro fuel
  induction fuel with
  | zero =>
      intro q _ disp
      cases q <;> rfl
  | succ n ih =>
      intro q hq disp
      cases q with
      | nil => rfl
      | cons c rest =>
          have hq' : Cmd.quit ∉ rest := fun h => hq (List.mem_cons_of_mem _ h)
          cases c with
          | color s =>
              rw [show process_commands_from m (n + 1) (.color s :: rest) disp
                  = process_commands_from m n rest { disp with color := s } from rfl,
                ih rest hq']
              rfl
          | label s =>
              rw [show process_commands_from m (n + 1) (.label s :: rest) disp
                  = process_commands_from m n rest
                      { disp with label_text := s.take m } from rfl,
                ih rest hq']
              rfl
          | quit =>
              exact absurd (List.mem_cons_self _ _) hq

/-- Draining enough ticks empties a quit-free queue, applying every command
in enqueue order. -/
theorem drain_ticks_no_quit (m : Nat) :
    ∀ (n : Nat) (q : List Cmd), Cmd.quit ∉ q → q.length ≤ 8 * n →
      ∀ disp : Display,
        drain_ticks m n q disp = ([], q.foldl (applyCmd m) disp) := by
  intro n
  induction n with
  | zero =>
      intro q _ hlen disp
      have hq : q = [] := List.eq_nil_of_length_eq_zero (by omega)
      subst hq
      rfl
  | succ k ih =>
      intro q hq hlen disp
      show (let p := process_commands_generic m q disp
            drain_ticks m k p.1 p.2) = _
      rw [show process_commands_generic m q disp
          = process_commands_from m 8 q disp from rfl,
        process_commands_from_no_quit m 8 q hq disp]
      have hq' : Cmd.quit ∉ q.drop 8 := fun h => hq (List.mem_of_mem_drop h)
      have hlen' : (q.drop 8).length ≤ 8 * k := by
        rw [List.length_drop]
        omega
      show drain_ticks m k (q.drop 8) ((q.take 8).foldl (applyCmd m) disp) = _
      rw [ih (q.drop 8) hq' hlen', ← List.foldl_append, List.take_append_drop]

/-! ## Claim theorems -/

/-- C1 counterexample: with Alt held and the toggle callback absent, the
space press at time 10 reaches the trigger check, invokes no callback at
all, yet the stored last-trigger timestamp changes from 0 to 10; the
qualifying Alt+Shift+Q press at time 13 (within the debounce interval of
the silent update) is then swallowed instead of being delivered.  This
refutes the claim that the timestamp is recorded only when a callback
actually fired. -/
theorem trigger_ts_recorded_without_callback_cex :
    (Listener.run_events
        ⟨true, true, false, 10, 0, ⟨true, false, false, false, false⟩⟩
        [(10, .press RawKey.space), (12, .press RawKey.shift),
         (13, .press (RawKey.keyCode (some 12)))]).2 = [] ∧
    (Listener.run_events
        ⟨true, true, false, 10, 0, ⟨true, false, false, false, false⟩⟩
        [(10, .press RawKey.space)]).1.last_trigger_ts = 10 := by
  with_unfolding_all decide

/-- C1 (amended): `_maybe_trigger` records the new last-trigger timestamp
whenever the event passes the debounce check, whether or not any callback
fired; consequently an event that passes the check without firing still
opens a fresh debounce window, and any event within `debounce_seconds` of
it is swallowed with no state change. -/
theorem trigger_ts_advances_without_callback (L : Listener) (now : ℚ)
    (h : ¬(now - L.last_trigger_ts < L.debounce_seconds)) :
    (L.maybe_trigger now).1 = { L with last_trigger_ts := now } ∧
    ∀ now2 : ℚ, now2 - now < L.debounce_seconds →
      (L.maybe_trigger now).1.maybe_trigger now2 = ((L.maybe_trigger now).1, none) := by
  have h1 := maybe_trigger_fst L now h
  refine ⟨h1, ?_⟩
  intro now2 h2
  rw [h1]
  exact maybe_trigger_swallow _ now2 h2

/-- Witness for the amended C1 at the source's default 0.8-second debounce. -/
theorem trigger_ts_advances_without_callback_witness :
    ¬((1 : ℚ) - 0 < mkRat 8 10) ∧
    ((Listener.mk true true false (mkRat 8 10) 0
        (KeyState.mk true false false false true)).maybe_trigger 1).1
      = { Listener.mk true true false (mkRat 8 10) 0
            (KeyState.mk true false false false true) with last_trigger_ts := 1 } :=
  ⟨by with_unfolding_all decide,
   (trigger_ts_advances_without_callback _ 1 (by with_unfolding_all decide)).1⟩

/-- C2 counterexample: a second-step call (pending point `(0,0)` recorded at
time 0, timeout 12, now 5) in which `capture_region_to_file` raises leaves
the pending-region state exactly as it was — the stale first point
survives this terminal error of the second step, refuting the claim that
every error path clears it. -/
theorem pending_region_survives_capture_error_cex :
    on_hotkey_cropped ⟨some (10, 10), false, true⟩ ⟨some (0, 0), 0, 12⟩ 5
      = (⟨some (0, 0), 0, 12⟩, .captureError 0 0 10 10) := by
  with_unfolding_all decide

/-- C2 (amended): during the second step the pending region is cleared
whenever `capture_region_to_file` succeeds — including when the downstream
analysis fails, since that exception is caught before the clearing — but a
failure of the region-capture collaborator itself propagates out of the
handler before the clearing, leaving the pending first point in place. -/
theorem pending_region_cleared_iff_capture_succeeds
    (env : CropEnv) (st : CropState) (now : ℚ) (pt p1 : Int × Int)
    (hm : env.mouse_position = some pt)
    (hp : st.pending_crop_start = some p1)
    (ht : ¬(now - st.pending_crop_ts > st.pending_timeout_seconds)) :
    (env.capture_ok = true →
        (on_hotkey_cropped env st now).1.pending_crop_start = none ∧
        (on_hotkey_cropped env st now).1.pending_crop_ts = 0) ∧
    (env.capture_ok = false → (on_hotkey_cropped env st now).1 = st) := by
  obtain ⟨x, y⟩ := pt
  obtain ⟨x1, y1⟩ := p1
  simp only [on_hotkey_cropped, hm, hp, if_neg ht]
  constructor
  · intro hc
    simp [hc]
  · intro hc
    simp [hc]

/-- Witness for the amended C2: capture succeeds, analysis fails, pending
cleared. -/
theorem pending_region_cleared_iff_capture_succeeds_witness :
    (on_hotkey_cropped ⟨some (3, 4), true, false⟩
        ⟨some (1, 2), 0, 12⟩ 5).1.pending_crop_start = none :=
  ((pending_region_cleared_iff_capture_succeeds
      ⟨some (3, 4), true, false⟩ ⟨some (1, 2), 0, 12⟩ 5 (3, 4) (1, 2)
      rfl rfl (by with_unfolding_all decide)).1 rfl).1

/-- C3: the region-capture protocol of `_on_hotkey_cropped`: a call with no
pending region, or with a pending region strictly older than the timeout,
stores `(point, now)` and reports a first point with no capture; a call
within the timeout produces the min/max rectangle
(`width = max 0 (right - left)`, `height = max 0 (bottom - top)`) and clears
the pending state; concretely, points `(10,10)` at time 0 then `(50,40)` at
time 5 under a 12-second timeout give `{left 10, top 10, width 40,
height 30}`, a third call at time 20 is a fresh first point, and identical
points give a zero-by-zero rectangle without error. -/
theorem region_capture_protocol :
    (∀ (env : CropEnv) (st : CropState) (now : ℚ) (pt : Int × Int),
        env.mouse_position = some pt →
        st.pending_crop_start = none →
        on_hotkey_cropped env st now =
          ({ st with pending_crop_start := some pt, pending_crop_ts := now },
           .firstPoint pt)) ∧
    (∀ (env : CropEnv) (st : CropState) (now : ℚ) (pt p1 : Int × Int),
        env.mouse_position = some pt →
        st.pending_crop_start = some p1 →
        now - st.pending_crop_ts > st.pending_timeout_seconds →
        on_hotkey_cropped env st now =
          ({ st with pending_crop_start := some pt, pending_crop_ts := now },
           .firstPoint pt)) ∧
    (∀ (env : CropEnv) (st : CropState) (now : ℚ) (pt p1 : Int × Int),
        env.mouse_position = some pt →
        st.pending_crop_start = some p1 →
        ¬(now - st.pending_crop_ts > st.pending_timeout_seconds) →
        env.capture_ok = true →
        on_hotkey_cropped env st now =
          ({ st with pending_crop_start := none, pending_crop_ts := 0 },
           .captured (min p1.1 pt.1) (min p1.2 pt.2)
             (max 0 (max p1.1 pt.1 - min p1.1 pt.1))
             (max 0 (max p1.2 pt.2 - min p1.2 pt.2)) env.analysis_ok)) ∧
    (on_hotkey_cropped ⟨some (10, 10), true, true⟩ ⟨none, 0, 12⟩ 0
        = (⟨some (10, 10), 0, 12⟩, .firstPoint (10, 10))) ∧
    (on_hotkey_cropped ⟨some (50, 40), true, true⟩ ⟨some (10, 10), 0, 12⟩ 5
        = (⟨none, 0, 12⟩, .captured 10 10 40 30 true)) ∧
    (on_hotkey_cropped ⟨some (7, 8), true, true⟩ ⟨none, 0, 12⟩ 20
        = (⟨some (7, 8), 20, 12⟩, .firstPoint (7, 8))) ∧
    (on_hotkey_cropped ⟨some (10, 10), true, true⟩ ⟨some (10, 10), 0, 12⟩ 5
        = (⟨none, 0, 12⟩, .captured 10 10 0 0 true)) := by
  refine ⟨?_, ?_, ?_, ?_, ?_, ?_, ?_⟩
  · intro env st now pt hm hp
    obtain ⟨x, y⟩ := pt
    simp [on_hotkey_cropped, hm, hp]
  · intro env st now pt p1 hm hp ht
    obtain ⟨x, y⟩ := pt
    obtain ⟨x1, y1⟩ := p1
    simp [on_hotkey_cropped, hm, hp, if_pos ht]
  · intro env st now pt p1 hm hp ht hc
    obtain ⟨x, y⟩ := pt
    obtain ⟨x1, y1⟩ := p1
    simp [on_hotkey_cropped, hm, hp, if_neg ht, hc]
  · with_unfolding_all decide
  · with_unfolding_all decide
  · with_unfolding_all decide
  · with_unfolding_all decide

/-- Witness for C3 at a concrete fresh first point. -/
theorem region_capture_protocol_witness :
    on_hotkey_cropped ⟨some (2, 3), true, true⟩ ⟨none, 0, 12⟩ 7
      = (⟨some (2, 3), 7, 12⟩, .firstPoint (2, 3)) :=
  region_capture_protocol.1 ⟨some (2, 3), true, true⟩ ⟨none, 0, 12⟩ 7 (2, 3)
    rfl rfl

/-- C4: the debounce invariant: along any event sequence (nonnegative
debounce interval) the fired triggers are pairwise at least one debounce
interval apart; a swallowed event leaves the listener state completely
unchanged, so it does not extend the window; and trigger-qualifying events
at times `t`, `t + 0.3·debounce`, `t + 1.5·debounce` (here `t = 10`,
`debounce = 10`) fire exactly two triggers, at `t` and `t + 1.5·debounce`. -/
theorem debounce_invariant :
    (∀ (L : Listener) (es : List (ℚ × Event)), 0 ≤ L.debounce_seconds →
        List.Pairwise (fun p q => p.1 + L.debounce_seconds ≤ q.1)
          (L.run_events es).2) ∧
    (∀ (L : Listener) (now : ℚ), now - L.last_trigger_ts < L.debounce_seconds →
        L.maybe_trigger now = (L, none)) ∧
    (Listener.run_events ⟨true, true, true, 10, 0, KeyState.initial⟩
        [(1, .press .alt), (2, .press .shift),
         (10, .press (.keyCode (some 12))), (11, .release (.keyCode (some 12))),
         (13, .press (.keyCode (some 12))), (14, .release (.keyCode (some 12))),
         (25, .press (.keyCode (some 12)))]).2
      = [(10, .fullCapture), (25, .fullCapture)] := by
  refine ⟨?_, maybe_trigger_swallow, ?_⟩
  · intro L es hd
    exact (run_events_facts es L hd).2.2.2
  · with_unfolding_all decide

/-- Witness for C4 at a concrete one-event run. -/
theorem debounce_invariant_witness :
    (0 : ℚ) ≤ (Listener.mk true true true 10 0 KeyState.initial).debounce_seconds ∧
    List.Pairwise
      (fun p q : ℚ × Action =>
        p.1 + (Listener.mk true true true 10 0 KeyState.initial).debounce_seconds ≤ q.1)
      ((Listener.run_events (Listener.mk true true true 10 0 KeyState.initial)
          [(10, Event.press (RawKey.keyCode (some 12)))]).2) :=
  ⟨by with_unfolding_all decide,
   debounce_invariant.1 _ _ (by with_unfolding_all decide)⟩

/-- C5: tie-break determinism: whenever Alt and Shift are held with both Q
and W down, both capture callbacks registered and the debounce check
passed, `_maybe_trigger` invokes exactly the full-capture callback (the
`_q_down` branch precedes the `_w_down` branch), never the region-capture
one; the evaluation is a pure function of the state, hence identical on
every run. -/
theorem tie_break_full_capture (L : Listener) (now : ℚ)
    (halt : L.keys.alt_down = true) (hsh : L.keys.shift_down = true)
    (hq : L.keys.q_down = true) (hw : L.keys.w_down = true)
    (hfull : L.on_trigger = true) (hcrop : L.on_trigger_cropped = true)
    (hdeb : ¬(now - L.last_trigger_ts < L.debounce_seconds)) :
    (L.maybe_trigger now).2 = some Action.fullCapture := by
  simp only [Listener.maybe_trigger, if_neg hdeb, KeyState.check_toggle_combo,
    KeyState.check_combo, halt, hsh, hq, hw, hfull]
  simp

/-- Witness for C5 at a concrete both-keys-down state. -/
theorem tie_break_full_capture_witness :
    ((Listener.mk true true true 10 0
        (KeyState.mk true true true true false)).maybe_trigger 20).2
      = some Action.fullCapture :=
  tie_break_full_capture _ 20 rfl rfl rfl rfl rfl rfl
    (by with_unfolding_all decide)

/-- C6: the KeyState invariant: starting from the all-up state, after any
finite event sequence each tracked key reads down exactly when the last
event touching it was a press (in particular never down before its first
press nor after its matching release), and an event on a raw key that maps
to no tracked key leaves the state unchanged. -/
theorem keystate_tracks_last_event :
    (∀ (es : List Event) (t : TrackedKey),
        (runKeys es).report t = downAfter es t) ∧
    (∀ (s : KeyState) (e : Event),
        (∀ t, affects e.key t = false) → s.applyEvent e = s) := by
  constructor
  · intro es t
    unfold runKeys downAfter
    rw [report_foldl]
    cases h : (es.filter fun e => affects e.key t).getLast? with
    | none => cases t <;> rfl
    | some e => rfl
  · intro s e h
    have hr : ∀ t, (s.applyEvent e).report t = s.report t := by
      intro t
      rw [report_applyEvent, h t]
      simp
    exact KeyState.ext_report _ _ hr

/-- Witness for C6: a press/release run on Alt, and an untracked key press
leaving the state untouched. -/
theorem keystate_tracks_last_event_witness :
    ((runKeys [.press RawKey.alt, .press (RawKey.keyCode (some 12)),
        .release RawKey.alt]).report TrackedKey.altK
      = downAfter [.press RawKey.alt, .press (RawKey.keyCode (some 12)),
        .release RawKey.alt] TrackedKey.altK) ∧
    KeyState.applyEvent ⟨true, false, false, false, false⟩
        (.press RawKey.otherNamed)
      = ⟨true, false, false, false, false⟩ :=
  ⟨keystate_tracks_last_event.1 _ _,
   keystate_tracks_last_event.2 _ _ (fun t => by cases t <;> rfl)⟩

/-- C7: the render loop applies queued commands in enqueue (FIFO) order:
an empty queue returns immediately; a quit-free tick removes exactly the
first eight commands and applies them in order; enough ticks drain the
whole queue in order; the displayed colour is always the last queued colour
command's; and `SetColor(done)` then `SetColor(idle)` displays idle. -/
theorem status_commands_fifo_last_wins :
    (∀ (m : Nat) (disp : Display),
        process_commands_generic m [] disp = ([], disp)) ∧
    (∀ (m : Nat) (q : List Cmd) (disp : Display), Cmd.quit ∉ q →
        process_commands_generic m q disp =
          (q.drop 8, (q.take 8).foldl (applyCmd m) disp)) ∧
    (∀ (m n : Nat) (q : List Cmd) (disp : Display), Cmd.quit ∉ q →
        q.length ≤ 8 * n →
        drain_ticks m n q disp = ([], q.foldl (applyCmd m) disp)) ∧
    (∀ (m : Nat) (q : List Cmd) (disp : Display),
        (q.foldl (applyCmd m) disp).color = (lastColor q).getD disp.color) ∧
    (drain_ticks 24 1 [.color (COLORS "done"), .color (COLORS "idle")]
        ⟨COLORS "idle", "", false⟩
      = ([], ⟨COLORS "idle", "", false⟩)) := by
  refine ⟨fun m disp => rfl,
    fun m q disp hq => process_commands_from_no_quit m 8 q hq disp,
    fun m n q disp hq hlen => drain_ticks_no_quit m n q hq hlen disp,
    fun m q disp => foldl_applyCmd_color m q disp, ?_⟩
  with_unfolding_all decide

/-- Witness for C7 on a concrete one-colour queue. -/
theorem status_commands_fifo_last_wins_witness :
    process_commands_generic 24 [Cmd.color "#2f855a"]
        (Display.mk "#2b6cb0" "" false)
      = ([], Display.mk "#2f855a" "" false) := by
  rw [status_commands_fifo_last_wins.2.1 24 [Cmd.color "#2f855a"]
    (Display.mk "#2b6cb0" "" false) (by decide)]
  rfl

/-- C8: every state-mutating `StatusDot` call made while the signal is not
alive — before `start`, or at any point after `stop`, which always leaves
the alive flag cleared — is a no-op: nothing is enqueued, no observable
state changes, and the call is a total function (never an error). -/
theorem status_mutators_noop_unless_alive (d : StatusDot)
    (h : d.alive = false) (c : String) (t : Option String) :
    d.set_color c = d ∧ d.set_idle = d ∧ d.set_pending_crop = d ∧
    d.set_done = d ∧ d.set_label t = d ∧ d.clear_label = d ∧
    (∀ d' : StatusDot, (d'.stop).alive = false) := by
  refine ⟨?_, ?_, ?_, ?_, ?_, ?_, ?_⟩
  · simp [StatusDot.set_color, h]
  · simp [StatusDot.set_idle, StatusDot.set_color, h]
  · simp [StatusDot.set_pending_crop, StatusDot.set_color, h]
  · simp [StatusDot.set_done, StatusDot.set_color, h]
  · simp [StatusDot.set_label, h]
  · simp [StatusDot.clear_label, h]
  · intro d'
    by_cases hd : d'.alive <;> simp [StatusDot.stop, hd]

/-- Witness for C8 on a not-started StatusDot. -/
theorem status_mutators_noop_unless_alive_witness :
    (StatusDot.mk false [] 24).set_color "#2b6cb0" = StatusDot.mk false [] 24 :=
  (status_mutators_noop_unless_alive _ rfl "#2b6cb0" none).1

/-- C9: `capture_region_to_file` clamps each of the four region values to
`max 0 value` before the grab; a second-step rectangle with negative left
and top — produced unmodified by the region protocol from a point in
negative screen coordinates — is therefore silently clipped to the origin
rather than captured as requested. -/
theorem capture_region_clamped :
    (∀ left top width height : Int,
        capture_region_to_file left top width height =
          ⟨max 0 left, max 0 top, max 0 width, max 0 height⟩) ∧
    (∀ left top width height : Int, left < 0 →
        (capture_region_to_file left top width height).left = 0) ∧
    (∀ left top width height : Int, top < 0 →
        (capture_region_to_file left top width height).top = 0) ∧
    (on_hotkey_cropped ⟨some (10, 20), true, true⟩ ⟨some (-5, -3), 0, 12⟩ 5
        = (⟨none, 0, 12⟩, .captured (-5) (-3) 15 23 true)) ∧
    (capture_region_to_file (-5) (-3) 15 23 = ⟨0, 0, 15, 23⟩) := by
  refine ⟨fun _ _ _ _ => rfl, ?_, ?_, ?_, ?_⟩
  · intro l t w h hneg
    show max 0 l = 0
    exact max_eq_left hneg.le
  · intro l t w h hneg
    show max 0 t = 0
    exact max_eq_left hneg.le
  · with_unfolding_all decide
  · with_unfolding_all decide

/-- Witness for C9 at a concrete negative left argument. -/
theorem capture_region_clamped_witness :
    (capture_region_to_file (-7) 1 2 3).left = 0 :=
  capture_region_clamped.2.1 (-7) 1 2 3 (by decide)

/-- C10: `start` and `run_on_current_thread` are idempotent while the
signal is alive: called on an already-started signal, each returns at once
with the state unchanged and launches no render loop; in particular a
second `start` (or a `run_on_current_thread` after `start`) after any
first `start` never launches a second consumer. -/
theorem start_idempotent_while_alive (d : StatusDot)
    (h : d.alive = true) (run_ui : StatusDot → StatusDot) :
    d.start = (d, false) ∧
    d.run_on_current_thread run_ui = (d, false) ∧
    (∀ d0 : StatusDot, (d0.start).1.start = ((d0.start).1, false)) ∧
    (∀ d0 : StatusDot,
        (d0.start).1.run_on_current_thread run_ui = ((d0.start).1, false)) := by
  refine ⟨?_, ?_, ?_, ?_⟩
  · simp [StatusDot.start, h]
  · simp [StatusDot.run_on_current_thread, h]
  · intro d0
    by_cases h0 : d0.alive <;> simp [StatusDot.start, h0]
  · intro d0
    by_cases h0 : d0.alive <;>
      simp [StatusDot.start, StatusDot.run_on_current_thread, h0]

/-- Witness for C10 on a concrete alive StatusDot. -/
theorem start_idempotent_while_alive_witness :
    (StatusDot.mk true [] 24).start = (StatusDot.mk true [] 24, false) :=
  (start_idempotent_while_alive _ rfl id).1

end Supy
